import Mathlib

-- Verification development for the Multi-Column-Grid repository.
--
-- The repository has two TypeScript source files:
--   * src/src/main.ts : the grid renderer (parse, buildGrid, a settings record
--     and labeled cells), modelled below by `parse` and `buildGrid`;
--   * src/main.ts : the image context-menu feature whose core is
--     `updateImageMarkdownInEditor`, modelled below under the same name.
--
-- JavaScript-runtime primitives used by that code (String.prototype.trim,
-- String.prototype.split with a one-character separator, Number coercion on
-- the decimal fragment, template stringification of integers, the regexes
-- /^=== cell ([A-Z]\d+) ===$/ and /!\[\[([^\]]*)\]\]/g) are modelled
-- explicitly as executable Lean functions on `String`/`List Char`.
-- JavaScript numbers are modelled as exact rationals; the exotic corners of
-- `Number` (hexadecimal, exponent notation, Infinity, double rounding) are
-- outside the modelled fragment and are not exercised by any claim.

/-- The whitespace characters trimmed by the modelled String.prototype.trim. -/
def jsWS (c : Char) : Bool := c = ' ' || c = '\t' || c = '\n' || c = '\r'

/-- Trim `jsWS` characters from both ends of a character list. -/
def trimList (l : List Char) : List Char :=
  ((l.dropWhile jsWS).reverse.dropWhile jsWS).reverse

/-- Model of JavaScript String.prototype.trim. -/
def jsTrim (s : String) : String := String.mk (trimList s.data)

/-- Split a character list at every occurrence of `sep` (the separator is
dropped); models String.prototype.split with a one-character separator. -/
def splitListChar (sep : Char) : List Char → List (List Char)
  | [] => [[]]
  | c :: rest =>
    if c = sep then [] :: splitListChar sep rest
    else match splitListChar sep rest with
      | [] => [[c]]
      | h :: t => (c :: h) :: t

/-- Model of JavaScript String.prototype.split with a one-character separator. -/
def jsSplit (sep : Char) (s : String) : List String :=
  (splitListChar sep s.data).map String.mk

/-- Decimal value of a digit-character list (the value JavaScript Number
gives to a string of decimal digits). -/
def evalDigits (l : List Char) : ℕ := l.foldl (fun a c => 10 * a + (c.toNat - 48)) 0

/-- Decimal digit characters of a natural number, most significant first. -/
def natDigits (n : ℕ) : List Char :=
  if h : n < 10 then [Nat.digitChar n]
  else natDigits (n / 10) ++ [Nat.digitChar (n % 10)]
termination_by n
decreasing_by exact Nat.div_lt_self (by omega) (by omega)

/-- Model of the JavaScript Number coercion on an unsigned decimal literal
(digits, optionally followed by a point and fraction digits); `none` is NaN. -/
def jsNumberCore (l : List Char) : Option ℚ :=
  let intPart := l.takeWhile Char.isDigit
  match l.dropWhile Char.isDigit with
  | [] => if intPart = [] then none else some (mkRat (evalDigits intPart) 1)
  | '.' :: frac =>
    if frac.all Char.isDigit ∧ (intPart ≠ [] ∨ frac ≠ []) then
      some (mkRat (evalDigits intPart * 10 ^ frac.length + evalDigits frac) (10 ^ frac.length))
    else none
  | _ => none

/-- Model of the JavaScript Number coercion (decimal fragment): empty string
is 0, an optional sign is followed by a decimal literal, anything else is
NaN (`none`). -/
def jsNumber (s : String) : Option ℚ :=
  match s.data with
  | [] => some 0
  | '-' :: rest => (jsNumberCore rest).map (fun q => -q)
  | '+' :: rest => jsNumberCore rest
  | l => jsNumberCore l

/-- Model of the JavaScript expression `Number(v) || 2` applied to a possibly
missing (undefined) string: NaN and 0 fall back to 2. -/
def numOr2 (v : Option String) : ℚ :=
  match v.bind jsNumber with
  | none => 2
  | some q => if q = 0 then 2 else q

/-- Number of iterations of the JavaScript loop
`for (let i = 0; i < q; i++)` when `q` is the (rational) bound. -/
def natIter (q : ℚ) : ℕ :=
  if q.num ≤ 0 then 0 else (q.num.toNat + q.den - 1) / q.den

/-- Model of JavaScript template stringification of a number: integers print
their decimal representation (matching `Int.repr`); non-integral values are
outside the modelled fragment and get a placeholder num/den rendering. -/
def jsNumToString (q : ℚ) : String :=
  if q.den = 1 then q.num.repr
  else q.num.repr ++ "/" ++ Nat.repr q.den

/-- Truthiness of a possibly-undefined JavaScript string: undefined and the
empty string are falsy. -/
def jsTruthyStr (v : Option String) : Bool :=
  match v with
  | some s => !(s.data.isEmpty)
  | none => false

/-- Truthiness of a possibly-undefined JavaScript boolean. -/
def jsTruthyBool (v : Option Bool) : Bool := v.getD false

-- ──────────────────────────────────────────────────────────────────────
-- Image Modifier feature (src/main.ts, updateImageMarkdownInEditor)
-- ──────────────────────────────────────────────────────────────────────

/-- The DOM image element passed to the context-menu handlers.  The fields
stand for the attributes a right-clicked `<img>` element carries; the
rewrite code receives the element but never reads it. -/
structure ImgElement where
  src : String
  alt : String
deriving DecidableEq

/-- Result of `updateImageMarkdownInEditor`: the document lines after the
call, whether an image reference was found, and the transient notice shown
when none was. -/
structure UpdateResult where
  doc : List String
  foundImage : Bool
  notice : Option String
deriving DecidableEq

/-- Try to match the regex /!\[\[([^\]]*)\]\]/ at the head of the list;
returns (full match, inner capture). -/
def imgMatchAt (l : List Char) : Option (List Char × List Char) :=
  match l with
  | '!' :: '[' :: '[' :: rest =>
    let inner := rest.takeWhile (fun c => c != ']')
    match rest.dropWhile (fun c => c != ']') with
    | ']' :: ']' :: _ => some ('!' :: '[' :: '[' :: (inner ++ [']', ']']), inner)
    | _ => none
  | _ => none

/-- Leftmost match of /!\[\[([^\]]*)\]\]/ in a character list. -/
def findImgMatchList : List Char → Option (List Char × List Char)
  | [] => none
  | c :: cs =>
    match imgMatchAt (c :: cs) with
    | some m => some m
    | none => findImgMatchList cs

/-- First match of the image-reference regex in a line: (full match, inner). -/
def findImgMatch (line : String) : Option (String × String) :=
  (findImgMatchList line.data).map (fun m => (String.mk m.1, String.mk m.2))

/-- Replace the first occurrence of `pat` in the list by `rep` (model of
String.prototype.replace with a plain-string pattern). -/
def replaceFirstList (pat rep : List Char) : List Char → List Char
  | [] => []
  | c :: cs =>
    if pat.isPrefixOf (c :: cs) then rep ++ (c :: cs).drop pat.length
    else c :: replaceFirstList pat rep cs

/-- String version of `replaceFirstList`. -/
def replaceFirstStr (s pat rep : String) : String :=
  String.mk (replaceFirstList pat.data rep.data s.data)

/-- The recognized position and size modifier keywords (the array literal in
the filter at src/main.ts lines 139-141). -/
def recognizedModifiers : List String :=
  ["left", "right", "center", "float-left", "float-right", "small", "medium", "large"]

/-- The filter at src/main.ts lines 139-141: drop every modifier whose
trimmed form is a recognized position or size keyword. -/
def filterModifiers (mods : List String) : List String :=
  mods.filter (fun m => !(recognizedModifiers.contains (jsTrim m)))

/-- The new modifier list built at src/main.ts lines 139-151: the filtered
old modifiers, then the new position (unless null, empty or "clear"), then
the new size (unless null or empty). -/
def newModifiers (inner : String) (position size : Option String) : List String :=
  let modifiers := (jsSplit '|' inner).tail
  let filtered := filterModifiers modifiers
  let withPos :=
    match position with
    | some p => if p ≠ "" ∧ p ≠ "clear" then filtered ++ [p] else filtered
    | none => filtered
  match size with
  | some sz => if sz ≠ "" then withPos ++ [sz] else withPos
  | none => withPos

/-- Reconstructed image syntax (src/main.ts lines 153-159): filename alone
when no modifiers remain, else filename and pipe-joined modifiers. -/
def rewriteImageSyntax (inner : String) (position size : Option String) : String :=
  let filename := ((jsSplit '|' inner).headD "")
  let mods := newModifiers inner position size
  if mods.length > 0 then
    "![[" ++ filename ++ "|" ++ String.intercalate "|" mods ++ "]]"
  else
    "![[" ++ filename ++ "]]"

/-- Indices of the document lines scanned by the loop at src/main.ts line
125: from max(0, cursor-2) to min(lastLine, cursor+2) inclusive. -/
def windowIdxs (docLen cursorLine : ℕ) : List ℕ :=
  List.range' (cursorLine - 2) (min (docLen - 1) (cursorLine + 2) + 1 - (cursorLine - 2))

/-- Model of updateImageMarkdownInEditor (src/main.ts lines 109-175): scan
the window of lines around the cursor for the first embedded-image
reference, rewrite its modifier list in place, or show a notice when no
reference is found.  The clicked image element is a parameter the source
function receives but never reads. -/
def updateImageMarkdownInEditor (imgElement : ImgElement) (doc : List String)
    (cursorLine : ℕ) (position size : Option String) : UpdateResult :=
  match (windowIdxs doc.length cursorLine).findSome?
      (fun i => (findImgMatch (doc.getD i "")).map (fun m => (i, m.1, m.2))) with
  | none => { doc := doc, foundImage := false, notice := some "Could not find image to modify" }
  | some (i, full, inner) =>
    { doc := doc.set i (replaceFirstStr (doc.getD i "") full (rewriteImageSyntax inner position size))
      foundImage := true
      notice := none }

-- ──────────────────────────────────────────────────────────────────────
-- Grid Renderer feature (src/src/main.ts: parse and buildGrid)
-- ──────────────────────────────────────────────────────────────────────

/-- The settings record built by parse (interface GridSettings).  Numeric
fields hold JavaScript numbers, modelled as exact rationals; optional
fields model possibly-undefined TypeScript fields. -/
structure GridSettings where
  columns : ℚ
  rows : ℚ
  showBorders : Bool
  cellHeight : Option String
  dynamicHeight : Bool
  invisibleMode : Option Bool
  colWidths : Option String
  rowHeights : Option String
deriving DecidableEq

/-- The defaults at src/src/main.ts lines 126-131: columns 2, rows 2,
borders on, dynamic height on, everything else undefined. -/
def defaultSettings : GridSettings :=
  { columns := 2, rows := 2, showBorders := true, cellHeight := none
    dynamicHeight := true, invisibleMode := none, colWidths := none, rowHeights := none }

/-- A parsed cell (interface GridCell).  `row` and `column` are JavaScript
numbers computed by subtraction, hence integers here. -/
structure GridCell where
  id : String
  content : String
  row : ℤ
  column : ℤ
deriving DecidableEq

/-- One settings-mode line (src/src/main.ts lines 148-176): split on every
colon, trim each part, take the first two as key and value, and update the
matching settings field. -/
def applySetting (s : GridSettings) (line : String) : GridSettings :=
  let parts := (jsSplit ':' line).map jsTrim
  let k := parts.headD ""
  let v := parts[1]?
  if k = "columns" then { s with columns := numOr2 v }
  else if k = "rows" then { s with rows := numOr2 v }
  else if k = "show-borders" then { s with showBorders := v == some "true" }
  else if k = "cell-height" then { s with cellHeight := v }
  else if k = "dynamic-height" then { s with dynamicHeight := v == some "true" }
  else if k = "invisible-mode" then { s with invisibleMode := some (v == some "true") }
  else if k = "col-widths" then { s with colWidths := v }
  else if k = "row-heights" then { s with rowHeights := v }
  else s

/-- Model of the regex /^=== cell ([A-Z]\d+) ===$/ applied to a trimmed
line: on success returns the uppercase letter and the nonempty digit list
of the captured id. -/
def matchCellMarker (line : String) : Option (Char × List Char) :=
  if ("=== cell ".data).isPrefixOf line.data then
    match line.data.drop 9 with
    | c :: cs =>
      if c.isUpper ∧ cs.takeWhile Char.isDigit ≠ [] ∧ cs.dropWhile Char.isDigit = " ===".data then
        some (c, cs.takeWhile Char.isDigit)
      else none
    | [] => none
  else none

/-- The mutable state of the scanning loop in parse (src/src/main.ts lines
132-135): settings so far, finished cells, the open cell, the
inside-settings flag and the content buffer. -/
structure ParseState where
  s : GridSettings
  cells : List GridCell
  cur : Option GridCell
  inSettings : Bool
  buf : List String

/-- Finalize the open cell, if any (src/src/main.ts lines 181-185 and
200-203): its content is the trimmed newline-join of the buffer. -/
def flushCur (st : ParseState) : ParseState :=
  match st.cur with
  | some cell =>
    { st with
      cells := st.cells ++ [{ cell with content := jsTrim (String.intercalate "\n" st.buf) }]
      cur := none
      buf := [] }
  | none => st

/-- One iteration of the line loop in parse (src/src/main.ts lines
137-199). -/
def parseStep (st : ParseState) (raw : String) : ParseState :=
  let line := jsTrim raw
  if line = "grid-settings" then { st with inSettings := true }
  else if st.inSettings ∧ line = "" then { st with inSettings := false }
  else if st.inSettings then { st with s := applySetting st.s line }
  else
    match matchCellMarker line with
    | some (c, ds) =>
      let st2 := flushCur st
      { st2 with
        cur := some { id := String.mk (c :: ds), content := ""
                      row := (evalDigits ds : ℤ) - 1, column := (c.toNat : ℤ) - 65 } }
    | none =>
      if ("=== start-grid:".data).isPrefixOf line.data ∨ line = "=== end-grid" then st
      else
        match st.cur with
        | some _ => { st with buf := st.buf ++ [raw] }
        | none => st

/-- Model of parse (src/src/main.ts lines 125-205). -/
def parse (src : String) : GridSettings × List GridCell :=
  let st := (jsSplit '\n' src).foldl parseStep
    { s := defaultSettings, cells := [], cur := none, inSettings := false, buf := [] }
  let st2 := flushCur st
  (st2.s, st2.cells)

/-- The address id of the slot in row `r`, column `col` (both 0-based):
String.fromCharCode(65 + col) + (r + 1), src/src/main.ts line 236. -/
def slotId (col r : ℕ) : String :=
  String.mk (Char.ofNat (65 + col) :: (Nat.repr (r + 1)).data)

/-- One slot div created by buildGrid: its data-cell id, 1-based grid row
and column position strings, and whether the empty placeholder was
inserted. -/
structure GridSlot where
  id : String
  gridRow : String
  gridColumn : String
  placeholder : Bool
deriving DecidableEq

/-- The slot created for row `r`, column `col` (src/src/main.ts lines
236-244): it gets the placeholder exactly when no parsed cell's id equals
the slot's id. -/
def mkSlot (cells : List GridCell) (r col : ℕ) : GridSlot :=
  { id := slotId col r
    gridRow := Nat.repr (r + 1)
    gridColumn := Nat.repr (col + 1)
    placeholder := (cells.find? (fun v => v.id == slotId col r)).isNone }

/-- The container div built by buildGrid: class string, the --grid-cols and
--grid-rows custom properties, the grid-template strings, the --cell-height
property, and the slot divs in creation order. -/
structure GridContainer where
  className : String
  styleGridCols : String
  styleGridRows : String
  gridTemplateColumns : Option String
  gridTemplateRows : Option String
  cellHeightVar : Option String
  slots : List GridSlot

/-- Model of buildGrid (src/src/main.ts lines 207-247). -/
def buildGrid (s : GridSettings) (cells : List GridCell) : GridContainer :=
  { className := "grid-container" ++ (if s.showBorders then "" else " no-borders")
      ++ (if s.dynamicHeight then " dynamic-height" else "")
      ++ (if jsTruthyBool s.invisibleMode then " invisible-mode" else "")
      ++ " grid-cols-" ++ jsNumToString s.columns
    styleGridCols := jsNumToString s.columns
    styleGridRows := jsNumToString s.rows
    gridTemplateColumns :=
      if jsTruthyStr s.colWidths then s.colWidths
      else some ("repeat(" ++ jsNumToString s.columns ++ ", minmax(0, 1fr))")
    gridTemplateRows :=
      if jsTruthyStr s.rowHeights then s.rowHeights
      else if s.dynamicHeight then
        some ("repeat(" ++ jsNumToString s.rows ++ ", minmax(min-content, max-content))")
      else none
    cellHeightVar :=
      if jsTruthyStr s.rowHeights ∨ s.dynamicHeight then none
      else if jsTruthyStr s.cellHeight then s.cellHeight
      else none
    slots := (List.range (natIter s.rows)).flatMap
      (fun r => (List.range (natIter s.columns)).map (fun col => mkSlot cells r col)) }

/-- The well-formedness every parsed cell enjoys: its id is an uppercase
letter followed by a nonempty digit string, and row/column are derived from
the id exactly as the source derives them. -/
def CellShape (cell : GridCell) : Prop :=
  ∃ L ds, cell.id = String.mk (L :: ds) ∧ L.isUpper = true ∧ ds ≠ [] ∧
    (∀ c ∈ ds, c.isDigit = true) ∧
    cell.column = (L.toNat : ℤ) - 65 ∧ cell.row = (evalDigits ds : ℤ) - 1

/-- The key of a raw block line, as the settings switch computes it: trim
the line, split on colons, trim the first part. -/
def lineKey (raw : String) : String :=
  ((jsSplit ':' (jsTrim raw)).map jsTrim).headD ""

-- ──────────────────────────────────────────────────────────────────────
-- Concrete inputs used when settling individual claims
-- ──────────────────────────────────────────────────────────────────────

/-- A clicked image element. -/
def imgA : ImgElement := { src := "app://pic.png", alt := "pic" }

/-- A different clicked image element. -/
def imgB : ImgElement := { src := "app://other.png", alt := "other" }

/-- One-line document holding the reference of claim C1. -/
def docC1 : List String := ["![[pic.png|left|small]]"]

/-- Block with columns 3, rows 1 and the two cells A1 and D1. -/
def srcC3 : String :=
  "grid-settings\ncolumns: 3\nrows: 1\n\n=== cell A1 ===\nx\n=== cell D1 ===\ny\n=== end-grid"

/-- The out-of-range cell the parse of `srcC3` produces. -/
def cellD1 : GridCell := { id := "D1", content := "y", row := 0, column := 3 }

/-- Block whose col-widths value itself contains a colon. -/
def srcC5 : String := "grid-settings\ncol-widths: 1fr:2fr"

/-- Block whose columns value is the negative number -3. -/
def srcC6 : String := "grid-settings\ncolumns: -3"

/-- Block with rows 2, columns 2 and the single cell marker A1. -/
def srcC7 : String := "grid-settings\nrows: 2\ncolumns: 2\n\n=== cell A1 ==="

/-- Document whose only image reference sits three lines above the cursor
position 3 used in the witness of claim C8. -/
def docC8 : List String := ["![[pic.png]]", "alpha", "beta", "gamma", "delta", "epsilon"]

/-- Settings with 27 columns, enough to exhaust the alphabet. -/
def settingsC27 : GridSettings := { defaultSettings with columns := 27, rows := 1 }

/-- Block with no dynamic-height settings line. -/
def srcC10 : String := "grid-settings\ncolumns: 2\nrows: 2"

-- ──────────────────────────────────────────────────────────────────────
-- Helper lemmas: strings, splitting, decimal digits
-- ──────────────────────────────────────────────────────────────────────

theorem string_mk_data (s : String) : String.mk s.data = s := by
  cases s
  rfl

theorem splitListChar_ne_nil (sep : Char) (l : List Char) : splitListChar sep l ≠ [] := by
  induction l with
  | nil => simp [splitListChar]
  | cons c rest ih =>
    rw [splitListChar]
    split
    · simp
    · split
      · simp
      · simp

theorem splitListChar_no_sep (sep : Char) (l : List Char) (h : sep ∉ l) :
    splitListChar sep l = [l] := by
  induction l with
  | nil => rfl
  | cons c rest ih =>
    rw [splitListChar]
    rw [if_neg (by intro hc; exact h (hc ▸ List.mem_cons_self c rest))]
    rw [ih (fun hc => h (List.mem_cons_of_mem c hc))]

theorem splitListChar_append_sep (sep : Char) (a rest : List Char) (h : sep ∉ a) :
    splitListChar sep (a ++ sep :: rest) = a :: splitListChar sep rest := by
  induction a with
  | nil => simp [splitListChar]
  | cons c a2 ih =>
    rw [List.cons_append, splitListChar]
    rw [if_neg (by intro hc; exact h (hc ▸ List.mem_cons_self c a2))]
    rw [ih (fun hc => h (List.mem_cons_of_mem c hc))]

theorem digitChar_toNat (d : ℕ) (h : d < 10) : (Nat.digitChar d).toNat = 48 + d := by
  interval_cases d <;> rfl

theorem digitChar_isDigit (d : ℕ) (h : d < 10) : (Nat.digitChar d).isDigit = true := by
  interval_cases d <;> rfl

theorem toDigitsCore_eq (fuel n : ℕ) (ds : List Char) (h : n < fuel) :
    Nat.toDigitsCore 10 fuel n ds = natDigits n ++ ds := by
  induction fuel generalizing n ds with
  | zero => omega
  | succ f ih =>
    show (if n / 10 = 0 then Nat.digitChar (n % 10) :: ds
          else Nat.toDigitsCore 10 f (n / 10) (Nat.digitChar (n % 10) :: ds)) = _
    by_cases h0 : n / 10 = 0
    · rw [if_pos h0]
      have hlt : n < 10 := by omega
      rw [natDigits, dif_pos hlt, Nat.mod_eq_of_lt hlt]
      rfl
    · rw [if_neg h0]
      have hn10 : ¬ n < 10 := fun hc => h0 (Nat.div_eq_of_lt hc)
      have hf : n / 10 < f := by
        have := Nat.div_lt_self (show 0 < n by omega) (show 1 < 10 by omega)
        omega
      have hrw : natDigits n = natDigits (n / 10) ++ [Nat.digitChar (n % 10)] := by
        rw [natDigits]
        rw [dif_neg hn10]
      rw [ih _ _ hf, hrw]
      simp

theorem nat_repr_data (n : ℕ) : (Nat.repr n).data = natDigits n := by
  show (Nat.toDigits 10 n).asString.data = natDigits n
  rw [Nat.toDigits, toDigitsCore_eq _ _ _ (Nat.lt_succ_self n)]
  simp [List.asString]

theorem evalDigits_append_singleton (l : List Char) (c : Char) :
    evalDigits (l ++ [c]) = 10 * evalDigits l + (c.toNat - 48) := by
  unfold evalDigits
  rw [List.foldl_append]
  rfl

theorem evalDigits_natDigits (n : ℕ) : evalDigits (natDigits n) = n := by
  induction n using Nat.strong_induction_on with
  | _ n ih =>
    by_cases h : n < 10
    · rw [natDigits, dif_pos h]
      show evalDigits ([] ++ [Nat.digitChar n]) = n
      rw [evalDigits_append_singleton, digitChar_toNat n h]
      simp [evalDigits]
    · rw [natDigits, dif_neg h]
      rw [evalDigits_append_singleton]
      rw [ih (n / 10) (Nat.div_lt_self (by omega) (by omega))]
      rw [digitChar_toNat (n % 10) (Nat.mod_lt _ (by omega))]
      omega

theorem natDigits_ne_nil (n : ℕ) : natDigits n ≠ [] := by
  rw [natDigits]
  split
  · simp
  · intro hc
    rw [List.append_eq_nil] at hc
    simp at hc

theorem natDigits_all_digit (n : ℕ) : ∀ c ∈ natDigits n, c.isDigit = true := by
  induction n using Nat.strong_induction_on with
  | _ n ih =>
    by_cases h : n < 10
    · rw [natDigits, dif_pos h]
      intro c hc
      simp at hc
      subst hc
      exact digitChar_isDigit n h
    · rw [natDigits, dif_neg h]
      intro c hc
      rw [List.mem_append] at hc
      rcases hc with hc | hc
      · exact ih (n / 10) (Nat.div_lt_self (by omega) (by omega)) c hc
      · simp at hc
        subst hc
        exact digitChar_isDigit (n % 10) (Nat.mod_lt _ (by omega))

theorem natDigits_inj (m n : ℕ) (h : natDigits m = natDigits n) : m = n := by
  have := congrArg evalDigits h
  rwa [evalDigits_natDigits, evalDigits_natDigits] at this

-- ──────────────────────────────────────────────────────────────────────
-- Helper lemmas: characters and the slot id alphabet
-- ──────────────────────────────────────────────────────────────────────

theorem charOfNat_toNat_or (n : ℕ) : (Char.ofNat n).toNat = n ∨ (Char.ofNat n).toNat = 0 := by
  unfold Char.ofNat
  by_cases h : n.isValidChar
  · rw [dif_pos h]; left; rfl
  · rw [dif_neg h]; right; rfl

theorem charOfNat_upper_toNat : ∀ c : ℕ, c < 26 → (Char.ofNat (65 + c)).toNat = 65 + c := by
  decide

theorem charOfNat_upper_isUpper : ∀ c : ℕ, c < 26 → (Char.ofNat (65 + c)).isUpper = true := by
  decide

theorem isUpper_toNat_bounds (c : Char) (h : c.isUpper = true) :
    65 ≤ c.toNat ∧ c.toNat ≤ 90 := by
  simp [Char.isUpper] at h
  exact h

-- ──────────────────────────────────────────────────────────────────────
-- Helper lemmas: rational loop bounds and settings values
-- ──────────────────────────────────────────────────────────────────────

theorem rat_cast_lt_iff (r : ℕ) (q : ℚ) : (r : ℚ) < q ↔ (r : ℤ) * q.den < q.num := by
  conv_lhs => rw [← Rat.num_div_den q]
  rw [lt_div_iff₀ (by exact_mod_cast q.pos)]
  constructor
  · intro h
    have : ((r * q.den : ℤ) : ℚ) < ((q.num : ℤ) : ℚ) := by push_cast; push_cast at h; linarith
    exact_mod_cast this
  · intro h
    have : ((r * q.den : ℤ) : ℚ) < ((q.num : ℤ) : ℚ) := by exact_mod_cast h
    push_cast at this ⊢
    linarith

theorem lt_natIter_iff (r : ℕ) (q : ℚ) : r < natIter q ↔ (r : ℚ) < q := by
  rw [rat_cast_lt_iff]
  unfold natIter
  by_cases h : q.num ≤ 0
  · rw [if_pos h]
    constructor
    · omega
    · intro hr
      have h1 : (0 : ℤ) ≤ (r : ℤ) * q.den := by positivity
      omega
  · rw [if_neg h]
    push_neg at h
    have hd : 0 < q.den := q.pos
    have hnum : q.num = (q.num.toNat : ℤ) := (Int.toNat_of_nonneg h.le).symm
    constructor
    · intro hr
      have h1 : (r + 1) * q.den ≤ q.num.toNat + q.den - 1 :=
        (Nat.le_div_iff_mul_le hd).mp hr
      rw [Nat.add_mul, one_mul] at h1
      have h2 : r * q.den < q.num.toNat := by omega
      omega
    · intro hr
      have h2 : r * q.den < q.num.toNat := by omega
      apply (Nat.le_div_iff_mul_le hd).mpr
      rw [Nat.succ_mul]
      omega

theorem natIter_natCast (R : ℕ) : natIter (R : ℚ) = R := by
  unfold natIter
  rw [Rat.num_natCast, Rat.den_natCast]
  rcases Nat.eq_zero_or_pos R with h | h
  · subst h; simp
  · rw [if_neg (by exact_mod_cast Nat.not_le.mpr h)]
    simp

theorem numOr2_ne_zero (v : Option String) : numOr2 v ≠ 0 := by
  unfold numOr2
  cases v.bind jsNumber with
  | none => norm_num
  | some q =>
    show (if q = 0 then (2 : ℚ) else q) ≠ 0
    by_cases hq : q = 0
    · rw [if_pos hq]; norm_num
    · rw [if_neg hq]; exact hq

theorem applySetting_ne_zero (s : GridSettings) (line : String)
    (hc : s.columns ≠ 0) (hr : s.rows ≠ 0) :
    (applySetting s line).columns ≠ 0 ∧ (applySetting s line).rows ≠ 0 := by
  simp only [applySetting]
  split_ifs <;>
    first
      | exact ⟨numOr2_ne_zero _, hr⟩
      | exact ⟨hc, numOr2_ne_zero _⟩
      | exact ⟨hc, hr⟩

theorem applySetting_dynamicHeight (s : GridSettings) (line : String)
    (h : ((jsSplit ':' line).map jsTrim).headD "" ≠ "dynamic-height") :
    (applySetting s line).dynamicHeight = s.dynamicHeight := by
  simp only [applySetting]
  split_ifs <;> rfl

theorem flushCur_s (st : ParseState) : (flushCur st).s = st.s := by
  unfold flushCur
  split
  · rfl
  · rfl

theorem parseStep_s_cases (st : ParseState) (raw : String) :
    (parseStep st raw).s = st.s ∨ (parseStep st raw).s = applySetting st.s (jsTrim raw) := by
  simp only [parseStep]
  split
  · left; rfl
  · split
    · left; rfl
    · split
      · right; rfl
      · split
        · left; exact flushCur_s st
        · split
          · left; rfl
          · split
            · left; rfl
            · left; rfl

theorem foldl_parseStep_ne_zero (lines : List String) (st : ParseState)
    (hc : st.s.columns ≠ 0) (hr : st.s.rows ≠ 0) :
    (lines.foldl parseStep st).s.columns ≠ 0 ∧ (lines.foldl parseStep st).s.rows ≠ 0 := by
  induction lines generalizing st with
  | nil => exact ⟨hc, hr⟩
  | cons raw rest ih =>
    rw [List.foldl_cons]
    rcases parseStep_s_cases st raw with hcase | hcase
    · exact ih (parseStep st raw) (hcase ▸ hc) (hcase ▸ hr)
    · obtain ⟨h1, h2⟩ := applySetting_ne_zero st.s (jsTrim raw) hc hr
      exact ih (parseStep st raw) (hcase ▸ h1) (hcase ▸ h2)

theorem foldl_parseStep_dynamicHeight (lines : List String) (st : ParseState)
    (hdyn : st.s.dynamicHeight = true)
    (h : ∀ raw ∈ lines, lineKey raw ≠ "dynamic-height") :
    (lines.foldl parseStep st).s.dynamicHeight = true := by
  induction lines generalizing st with
  | nil => exact hdyn
  | cons raw rest ih =>
    rw [List.foldl_cons]
    have hkey : ((jsSplit ':' (jsTrim raw)).map jsTrim).headD "" ≠ "dynamic-height" :=
      h raw (List.mem_cons_self raw rest)
    have hstep : (parseStep st raw).s.dynamicHeight = true := by
      rcases parseStep_s_cases st raw with hcase | hcase
      · rw [hcase]; exact hdyn
      · rw [hcase, applySetting_dynamicHeight _ _ hkey]; exact hdyn
    exact ih (parseStep st raw) hstep (fun x hx => h x (List.mem_cons_of_mem raw hx))

-- ──────────────────────────────────────────────────────────────────────
-- Helper lemmas: shape of parsed cells
-- ──────────────────────────────────────────────────────────────────────

theorem cellShape_content (cell : GridCell) (content : String) (h : CellShape cell) :
    CellShape { cell with content := content } := by
  obtain ⟨L, ds, h1, h2, h3, h4, h5, h6⟩ := h
  exact ⟨L, ds, h1, h2, h3, h4, h5, h6⟩

theorem matchCellMarker_shape (line : String) (c : Char) (ds : List Char)
    (h : matchCellMarker line = some (c, ds)) :
    c.isUpper = true ∧ ds ≠ [] ∧ ∀ x ∈ ds, x.isDigit = true := by
  unfold matchCellMarker at h
  split at h
  · split at h
    · rename_i c0 cs heq
      split at h
      · rename_i hcond
        rw [Option.some.injEq, Prod.mk.injEq] at h
        obtain ⟨hc, hds⟩ := h
        subst hc
        subst hds
        exact ⟨hcond.1, hcond.2.1, fun x hx => List.mem_takeWhile_imp hx⟩
      · exact absurd h (by simp)
    · exact absurd h (by simp)
  · exact absurd h (by simp)

theorem flushCur_shape (st : ParseState)
    (h1 : ∀ c ∈ st.cells, CellShape c)
    (h2 : ∀ cell, st.cur = some cell → CellShape cell) :
    (∀ c ∈ (flushCur st).cells, CellShape c) ∧
      (∀ cell, (flushCur st).cur = some cell → CellShape cell) := by
  unfold flushCur
  split
  · rename_i cell0 heq
    constructor
    · intro c hc
      rw [List.mem_append] at hc
      rcases hc with hc | hc
      · exact h1 c hc
      · simp at hc
        subst hc
        exact cellShape_content cell0 _ (h2 cell0 heq)
    · intro cell hcell
      simp at hcell
  · exact ⟨h1, h2⟩

theorem parseStep_shape (st : ParseState) (raw : String)
    (h1 : ∀ c ∈ st.cells, CellShape c)
    (h2 : ∀ cell, st.cur = some cell → CellShape cell) :
    (∀ c ∈ (parseStep st raw).cells, CellShape c) ∧
      (∀ cell, (parseStep st raw).cur = some cell → CellShape cell) := by
  simp only [parseStep]
  split
  · exact ⟨h1, h2⟩
  · split
    · exact ⟨h1, h2⟩
    · split
      · exact ⟨h1, h2⟩
      · split
        · rename_i c ds hmatch
          obtain ⟨hu, hne, hdig⟩ := matchCellMarker_shape _ c ds hmatch
          obtain ⟨f1, f2⟩ := flushCur_shape st h1 h2
          constructor
          · exact f1
          · intro cell hcell
            injection hcell with hcell
            subst hcell
            exact ⟨c, ds, rfl, hu, hne, hdig, rfl, rfl⟩
        · split
          · exact ⟨h1, h2⟩
          · split
            · exact ⟨h1, fun cell hcell => h2 cell hcell⟩
            · exact ⟨h1, h2⟩

theorem foldl_parseStep_shape (lines : List String) (st : ParseState)
    (h1 : ∀ c ∈ st.cells, CellShape c)
    (h2 : ∀ cell, st.cur = some cell → CellShape cell) :
    (∀ c ∈ (lines.foldl parseStep st).cells, CellShape c) ∧
      (∀ cell, (lines.foldl parseStep st).cur = some cell → CellShape cell) := by
  induction lines generalizing st with
  | nil => exact ⟨h1, h2⟩
  | cons raw rest ih =>
    rw [List.foldl_cons]
    obtain ⟨g1, g2⟩ := parseStep_shape st raw h1 h2
    exact ih (parseStep st raw) g1 g2

theorem parse_cells_shape (src : String) :
    ∀ cell ∈ (parse src).2, CellShape cell := by
  unfold parse
  intro cell hcell
  have hfold := foldl_parseStep_shape (jsSplit '\n' src)
    { s := defaultSettings, cells := [], cur := none, inSettings := false, buf := [] }
    (by intro c hc; simp at hc) (by intro c hc; simp at hc)
  exact (flushCur_shape _ hfold.1 hfold.2).1 cell hcell

-- ──────────────────────────────────────────────────────────────────────
-- Helper lemmas: the slot grid
-- ──────────────────────────────────────────────────────────────────────

theorem buildGrid_slots (s : GridSettings) (cells : List GridCell) :
    (buildGrid s cells).slots = (List.range (natIter s.rows)).flatMap
      (fun r => (List.range (natIter s.columns)).map (fun col => mkSlot cells r col)) := rfl

theorem mkSlot_id (cells : List GridCell) (r col : ℕ) :
    (mkSlot cells r col).id = slotId col r := rfl

theorem slotId_eq (col r : ℕ) :
    slotId col r = String.mk (Char.ofNat (65 + col) :: natDigits (r + 1)) := by
  unfold slotId
  rw [nat_repr_data]

theorem mem_slots (s : GridSettings) (cells : List GridCell) (slot : GridSlot) :
    slot ∈ (buildGrid s cells).slots ↔
      ∃ r, r < natIter s.rows ∧ ∃ col, col < natIter s.columns ∧ slot = mkSlot cells r col := by
  rw [buildGrid_slots]
  simp [List.mem_flatMap, List.mem_range, eq_comm]

theorem slotId_inj26 (c c' r r' : ℕ) (hc : c < 26) (hc' : c' < 26)
    (h : slotId c r = slotId c' r') : c = c' ∧ r = r' := by
  rw [slotId_eq, slotId_eq] at h
  have hdata : Char.ofNat (65 + c) :: natDigits (r + 1)
      = Char.ofNat (65 + c') :: natDigits (r' + 1) := congrArg String.data h
  injection hdata with hch hds
  have hc1 : 65 + c = 65 + c' := by
    rw [← charOfNat_upper_toNat c hc, ← charOfNat_upper_toNat c' hc', hch]
  have hr1 : r + 1 = r' + 1 := natDigits_inj _ _ hds
  omega

theorem slotId_eq_upper_digits (col r : ℕ) (L : Char) (ds : List Char)
    (hL : L.isUpper = true) (h : slotId col r = String.mk (L :: ds)) :
    (L.toNat : ℤ) - 65 = (col : ℤ) ∧ ds = natDigits (r + 1) := by
  rw [slotId_eq] at h
  have hdata : Char.ofNat (65 + col) :: natDigits (r + 1) = L :: ds := congrArg String.data h
  injection hdata with hch hds
  obtain ⟨hlo, hhi⟩ := isUpper_toNat_bounds L hL
  rcases charOfNat_toNat_or (65 + col) with hdigit | hzero
  · rw [hch] at hdigit
    refine ⟨by omega, hds.symm⟩
  · rw [hch] at hzero
    exact (show False by omega).elim

theorem mkSlot_placeholder_iff (cells : List GridCell) (r col : ℕ) :
    (mkSlot cells r col).placeholder = true ↔ ∀ cell ∈ cells, cell.id ≠ slotId col r := by
  show (cells.find? (fun v => v.id == slotId col r)).isNone = true ↔ _
  rw [Option.isNone_iff_eq_none, List.find?_eq_none]
  constructor
  · intro h cell hcell
    have := h cell hcell
    simpa using this
  · intro h cell hcell
    simpa using h cell hcell

theorem sum_map_const_nat (n c : ℕ) : (List.map (fun _ => c) (List.range n)).sum = n * c := by
  induction n with
  | zero => simp
  | succ m ih => simp [List.range_succ, ih, Nat.succ_mul]

theorem length_buildGrid_slots (s : GridSettings) (cells : List GridCell) :
    (buildGrid s cells).slots.length = natIter s.rows * natIter s.columns := by
  rw [buildGrid_slots, List.length_flatMap]
  have : List.length ∘ (fun r => (List.range (natIter s.columns)).map (fun col => mkSlot cells r col))
      = fun _ => natIter s.columns := by
    funext r
    simp
  rw [this, sum_map_const_nat]

-- ──────────────────────────────────────────────────────────────────────
-- Claim theorems
-- ──────────────────────────────────────────────────────────────────────

/-- C1 counterexample: rewriting ![[pic.png|left|small]] with
newPosition="right", newSize=null does NOT yield ![[pic.png|right|small]];
the filter drops every recognized token, size keywords included. -/
theorem c1_counterexample :
    (updateImageMarkdownInEditor imgA docC1 0 (some "right") none).doc
      ≠ ["![[pic.png|right|small]]"] := by decide

/-- C1 amended: rewriting ![[pic.png|left|small]] with newPosition="right",
newSize=null yields ![[pic.png|right]]: the old position token is removed,
and the size token "small" is removed as well, because the filter strips
every recognized position or size keyword before the new position is
appended. -/
theorem c1_amended :
    (updateImageMarkdownInEditor imgA docC1 0 (some "right") none).doc
      = ["![[pic.png|right]]"] := by decide

/-- C2 amended: for natural-number settings rows=R and columns=C with
C ≤ 26, buildGrid produces exactly R*C slots with pairwise distinct ids,
each id an uppercase letter followed by a nonempty digit string, every
address (r, c) in [0,R)x[0,C) is covered by a slot carrying its id, and a
slot carries the empty placeholder marker exactly when no parsed cell's id
is string-equal to the slot's id. -/
theorem c2_amended (R C : ℕ) (s : GridSettings) (cells : List GridCell)
    (hC : C ≤ 26) (hrows : s.rows = (R : ℚ)) (hcols : s.columns = (C : ℚ)) :
    (buildGrid s cells).slots.length = R * C
    ∧ ((buildGrid s cells).slots.map GridSlot.id).Nodup
    ∧ (∀ slot ∈ (buildGrid s cells).slots,
        ∃ L ds, slot.id = String.mk (L :: ds) ∧ L.isUpper = true ∧ ds ≠ [] ∧
          ∀ c ∈ ds, c.isDigit = true)
    ∧ (∀ r, r < R → ∀ c, c < C →
        ∃ slot ∈ (buildGrid s cells).slots, slot.id = slotId c r)
    ∧ (∀ slot ∈ (buildGrid s cells).slots,
        (slot.placeholder = true ↔ ∀ cell ∈ cells, cell.id ≠ slot.id)) := by
  have hR : natIter s.rows = R := by rw [hrows]; exact natIter_natCast R
  have hCn : natIter s.columns = C := by rw [hcols]; exact natIter_natCast C
  refine ⟨?_, ?_, ?_, ?_, ?_⟩
  · rw [length_buildGrid_slots, hR, hCn]
  · rw [buildGrid_slots, hR, hCn, List.map_flatMap]
    rw [List.nodup_flatMap]
    constructor
    · intro r hr
      rw [List.map_map]
      apply List.Nodup.map_on ?_ (List.nodup_range C)
      intro x hx y hy hxy
      rw [List.mem_range] at hx hy
      exact (slotId_inj26 x y r r (lt_of_lt_of_le hx hC) (lt_of_lt_of_le hy hC) hxy).1
    · apply List.Pairwise.imp ?_ (List.pairwise_lt_range R)
      intro a b hab
      intro x hxa hxb
      simp only [List.map_map, List.mem_map] at hxa hxb
      obtain ⟨ca, hca, hma⟩ := hxa
      obtain ⟨cb, hcb, hmb⟩ := hxb
      rw [List.mem_range] at hca hcb
      have h1 : slotId ca a = slotId cb b := hma.trans hmb.symm
      have h2 := (slotId_inj26 ca cb a b (lt_of_lt_of_le hca hC) (lt_of_lt_of_le hcb hC) h1).2
      omega
  · intro slot hslot
    rw [mem_slots] at hslot
    obtain ⟨r, hr, col, hcol, rfl⟩ := hslot
    rw [hCn] at hcol
    refine ⟨Char.ofNat (65 + col), natDigits (r + 1), ?_, ?_,
      natDigits_ne_nil _, natDigits_all_digit _⟩
    · rw [mkSlot_id, slotId_eq]
    · exact charOfNat_upper_isUpper col (lt_of_lt_of_le hcol hC)
  · intro r hr c hc
    refine ⟨mkSlot cells r c, ?_, rfl⟩
    rw [mem_slots]
    exact ⟨r, by omega, c, by omega, rfl⟩
  · intro slot hslot
    rw [mem_slots] at hslot
    obtain ⟨r, hr, col, hcol, rfl⟩ := hslot
    rw [mkSlot_id]
    exact mkSlot_placeholder_iff cells r col

/-- C2 witness: the amended claim applied to the default settings (rows 2,
columns 2) and an empty cell list. -/
theorem c2_witness :
    (buildGrid defaultSettings []).slots.length = 2 * 2
    ∧ ((buildGrid defaultSettings []).slots.map GridSlot.id).Nodup
    ∧ (∀ slot ∈ (buildGrid defaultSettings []).slots,
        ∃ L ds, slot.id = String.mk (L :: ds) ∧ L.isUpper = true ∧ ds ≠ [] ∧
          ∀ c ∈ ds, c.isDigit = true)
    ∧ (∀ r, r < 2 → ∀ c, c < 2 →
        ∃ slot ∈ (buildGrid defaultSettings []).slots, slot.id = slotId c r)
    ∧ (∀ slot ∈ (buildGrid defaultSettings []).slots,
        (slot.placeholder = true ↔ ∀ cell ∈ ([] : List GridCell), cell.id ≠ slot.id)) :=
  c2_amended 2 2 defaultSettings [] (by decide) (by norm_num [defaultSettings])
    (by norm_num [defaultSettings])

/-- C2 counterexample: with columns = 27 the claim's addressing-scheme
format breaks: the slot for column 26 gets the id whose first character is
the bracket after Z, not an uppercase letter. -/
theorem c2_counterexample :
    (mkSlot [] 0 26) ∈ (buildGrid settingsC27 []).slots
    ∧ (((mkSlot [] 0 26).id.data.headD ' ').isUpper = false) := by decide

/-- C3: a parsed cell whose (row, column) lies outside [0,R)x[0,C) for the
parsed settings matches no slot produced by buildGrid: every slot id
differs from the cell's id. -/
theorem c3_out_of_range (src : String) (cell : GridCell)
    (hcell : cell ∈ (parse src).2)
    (hout : ¬((0 : ℚ) ≤ (cell.row : ℚ) ∧ (cell.row : ℚ) < (parse src).1.rows
        ∧ (0 : ℚ) ≤ (cell.column : ℚ) ∧ (cell.column : ℚ) < (parse src).1.columns)) :
    ∀ slot ∈ (buildGrid (parse src).1 (parse src).2).slots, slot.id ≠ cell.id := by
  intro slot hslot heq
  rw [mem_slots] at hslot
  obtain ⟨r, hr, col, hcol, rfl⟩ := hslot
  obtain ⟨L, ds, hid, hupper, hne, hdig, hcol_eq, hrow_eq⟩ := parse_cells_shape src cell hcell
  rw [mkSlot_id, hid] at heq
  obtain ⟨hLcol, hds⟩ := slotId_eq_upper_digits col r L ds hupper heq
  apply hout
  have hcolv : cell.column = (col : ℤ) := by rw [hcol_eq, hLcol]
  have hrowv : cell.row = (r : ℤ) := by
    rw [hrow_eq, hds, evalDigits_natDigits]
    push_cast
    omega
  refine ⟨?_, ?_, ?_, ?_⟩
  · rw [hrowv]; positivity
  · rw [hrowv]; push_cast; exact_mod_cast (lt_natIter_iff r (parse src).1.rows).mp hr
  · rw [hcolv]; positivity
  · rw [hcolv]; push_cast; exact_mod_cast (lt_natIter_iff col (parse src).1.columns).mp hcol

/-- C3 witness: parsing the block with columns 3, rows 1 and cells A1 and
D1; exactly the three slots A1, B1, C1 are produced, D1 is in the parsed
cell list, its address is out of range, and no slot carries its id. -/
theorem c3_witness :
    cellD1 ∈ (parse srcC3).2
    ∧ ((parse srcC3).2.map GridCell.id = ["A1", "D1"])
    ∧ ((buildGrid (parse srcC3).1 (parse srcC3).2).slots.map GridSlot.id = ["A1", "B1", "C1"])
    ∧ (∀ slot ∈ (buildGrid (parse srcC3).1 (parse srcC3).2).slots, slot.id ≠ cellD1.id) :=
  ⟨by decide, by decide, by decide,
    c3_out_of_range srcC3 cellD1 (by decide) (by decide)⟩

/-- C4: the clicked image element is never consulted: two invocations of
the rewrite with identical document, cursor, position and size arguments
but different clicked image elements give identical results. -/
theorem c4_clicked_element_irrelevant (img1 img2 : ImgElement) (doc : List String)
    (cursorLine : ℕ) (position size : Option String) :
    updateImageMarkdownInEditor img1 doc cursorLine position size
      = updateImageMarkdownInEditor img2 doc cursorLine position size := rfl

/-- C5 counterexample: the settings line col-widths: 1fr:2fr does not give
the value "1fr:2fr" (the whole trimmed text after the first colon); the
destructuring of the full split keeps only the text before the second
colon. -/
theorem c5_counterexample : (parse srcC5).1.colWidths ≠ some "1fr:2fr" := by decide

/-- C5 amended: a settings line is split at every colon; the key is the
trimmed text before the first colon and the value is the trimmed text
between the first and the second colon, so text after a second colon is
discarded (shown here for the col-widths key with an arbitrary colon-free
value segment b followed by ":2fr"). -/
theorem c5_amended (s : GridSettings) (b : String) (hb : ':' ∉ b.data) :
    applySetting s (String.mk ("col-widths:".data ++ (b.data ++ ":2fr".data)))
      = { s with colWidths := some (jsTrim b) } := by
  have h1 : "col-widths:".data ++ (b.data ++ ":2fr".data)
      = "col-widths".data ++ ':' :: (b.data ++ ':' :: "2fr".data) := by
    have h0 : "col-widths:".data = "col-widths".data ++ [':'] := rfl
    rw [h0]
    simp
  have hsplit : jsSplit ':' (String.mk ("col-widths:".data ++ (b.data ++ ":2fr".data)))
      = ["col-widths", String.mk b.data, "2fr"] := by
    unfold jsSplit
    show (splitListChar ':' ("col-widths:".data ++ (b.data ++ ":2fr".data))).map String.mk = _
    rw [h1, splitListChar_append_sep _ _ _ (by decide),
      splitListChar_append_sep _ _ _ hb, splitListChar_no_sep _ _ (by decide)]
    rfl
  simp only [applySetting, hsplit, List.map_cons, List.map_nil, string_mk_data]
  have hk : jsTrim "col-widths" = "col-widths" := by decide
  simp only [hk, List.headD_cons]
  rw [if_neg (by decide), if_neg (by decide), if_neg (by decide), if_neg (by decide),
    if_neg (by decide), if_neg (by decide), if_pos trivial]
  rfl

/-- C5 witness: the amended claim applied to the default settings and the
value segment " 1fr " (whose trim is "1fr"). -/
theorem c5_witness :
    applySetting defaultSettings
        (String.mk ("col-widths:".data ++ ((" 1fr " : String).data ++ ":2fr".data)))
      = { defaultSettings with colWidths := some (jsTrim " 1fr ") } :=
  c5_amended defaultSettings " 1fr " (by decide)

/-- C6 counterexample: the block declaring columns: -3 parses to the
settings value -3, which is not a positive integer, so the claimed
invariant columns ≥ 1 fails. -/
theorem c6_counterexample :
    (parse srcC6).1.columns = -3 ∧ ¬(1 ≤ (parse srcC6).1.columns) := by decide

/-- C6 amended: for every input block the parsed settings satisfy
columns ≠ 0 and rows ≠ 0: a value that fails to parse as a number, or
parses to 0, falls back to the default 2, but any other numeric value
(negative or fractional included) is kept as-is, so the fields need not be
positive integers. -/
theorem c6_amended (src : String) :
    (parse src).1.columns ≠ 0 ∧ (parse src).1.rows ≠ 0 := by
  unfold parse
  have h := foldl_parseStep_ne_zero (jsSplit '\n' src)
    { s := defaultSettings, cells := [], cur := none, inSettings := false, buf := [] }
    (by norm_num [defaultSettings]) (by norm_num [defaultSettings])
  show (flushCur _).s.columns ≠ 0 ∧ (flushCur _).s.rows ≠ 0
  rw [flushCur_s]
  exact h

/-- C7: every cell produced by parse has column = L - 65 and
row = N - 1 where L is the code of the first character of its id and N the
decimal value of the remaining digits; in particular parse of the block
with rows 2, columns 2 and the single cell marker A1 returns exactly one
cell, with row 0 and column 0. -/
theorem c7_cell_addressing :
    (∀ (src : String) (cell : GridCell), cell ∈ (parse src).2 →
      ∀ (L : Char) (ds : List Char), cell.id = String.mk (L :: ds) →
        cell.column = (L.toNat : ℤ) - 65 ∧ cell.row = (evalDigits ds : ℤ) - 1)
    ∧ (parse srcC7).2 = [{ id := "A1", content := "", row := 0, column := 0 }] := by
  constructor
  · intro src cell hcell L ds hid
    obtain ⟨L', ds', hid', hup, hne, hdig, hcolv, hrowv⟩ := parse_cells_shape src cell hcell
    rw [hid] at hid'
    have hlist : L :: ds = L' :: ds' := congrArg String.data hid'
    injection hlist with hL hds
    subst hL
    subst hds
    exact ⟨hcolv, hrowv⟩
  · decide

/-- C7 witness: the addressing equations applied at the concrete cell A1
parsed from the rows-2, columns-2 block. -/
theorem c7_witness :
    ({ id := "A1", content := "", row := 0, column := 0 } : GridCell) ∈ (parse srcC7).2
    ∧ (({ id := "A1", content := "", row := 0, column := 0 } : GridCell).column
          = (('A').toNat : ℤ) - 65
        ∧ ({ id := "A1", content := "", row := 0, column := 0 } : GridCell).row
          = (evalDigits ['1'] : ℤ) - 1) :=
  ⟨by decide,
    c7_cell_addressing.1 srcC7 { id := "A1", content := "", row := 0, column := 0 }
      (by decide) 'A' ['1'] rfl⟩

/-- C8: when no line of the cursor window (two lines above to two lines
below, clamped to the document) contains an embedded-image reference, the
operation leaves every document line unchanged, reports no image found and
signals this only through the transient notice. -/
theorem c8_no_match_notice (img : ImgElement) (doc : List String) (cursorLine : ℕ)
    (position size : Option String)
    (h : ∀ i ∈ windowIdxs doc.length cursorLine, findImgMatch (doc.getD i "") = none) :
    updateImageMarkdownInEditor img doc cursorLine position size
      = { doc := doc, foundImage := false, notice := some "Could not find image to modify" } := by
  have hnone : (windowIdxs doc.length cursorLine).findSome?
      (fun i => (findImgMatch (doc.getD i "")).map (fun m => (i, m.1, m.2))) = none := by
    rw [List.findSome?_eq_none_iff]
    intro i hi
    rw [h i hi]
    rfl
  unfold updateImageMarkdownInEditor
  rw [hnone]

/-- C8 witness: the reference ![[pic.png]] sits on line 0 and the cursor is
on line 3, three lines below it; the window covers lines 1 to 5, nothing is
rewritten and the notice is shown. -/
theorem c8_witness :
    updateImageMarkdownInEditor imgA docC8 3 (some "center") none
      = { doc := docC8, foundImage := false,
          notice := some "Could not find image to modify" } :=
  c8_no_match_notice imgA docC8 3 (some "center") none (by decide)

/-- C9: every modifier token whose trimmed form is not a recognized
position or size keyword survives any rewrite: the filtered unrecognized
tokens form, unchanged and in their original relative order, the leading
segment of the rewritten modifier list, and everything appended after them
is just the supplied position or size argument. -/
theorem c9_unrecognized_preserved (inner : String) (position size : Option String) :
    ∃ rest, newModifiers inner position size
        = filterModifiers ((jsSplit '|' inner).tail) ++ rest
      ∧ ∀ m ∈ rest, position = some m ∨ size = some m := by
  simp only [newModifiers]
  cases position with
  | none =>
    cases size with
    | none => exact ⟨[], by simp, by simp⟩
    | some sz =>
      by_cases hsz : sz = ""
      · subst hsz
        exact ⟨[], by simp, by simp⟩
      · exact ⟨[sz], by simp [hsz], by simp⟩
  | some p =>
    by_cases hp : p ≠ "" ∧ p ≠ "clear"
    · cases size with
      | none => exact ⟨[p], by simp [hp.1, hp.2], by simp⟩
      | some sz =>
        by_cases hsz : sz = ""
        · subst hsz
          exact ⟨[p], by simp [hp.1, hp.2], by simp⟩
        · exact ⟨[p, sz], by simp [hp.1, hp.2, hsz], by simp⟩
    · cases size with
      | none => exact ⟨[], by simp [hp], by simp⟩
      | some sz =>
        by_cases hsz : sz = ""
        · subst hsz
          exact ⟨[], by simp [hp], by simp⟩
        · exact ⟨[sz], by simp [hp, hsz], by simp⟩

/-- C10: a block containing no dynamic-height settings line parses to
settings with dynamicHeight = true (the parser defaults it on), and with
dynamicHeight on and no row-heights spec buildGrid sets the row tracks to
repeat(rows, minmax(min-content, max-content)). -/
theorem c10_dynamic_height_default :
    (∀ src : String, (∀ raw ∈ jsSplit '\n' src, lineKey raw ≠ "dynamic-height") →
      (parse src).1.dynamicHeight = true)
    ∧ (∀ (s : GridSettings) (cells : List GridCell), s.dynamicHeight = true →
        s.rowHeights = none →
        (buildGrid s cells).gridTemplateRows
          = some ("repeat(" ++ jsNumToString s.rows ++ ", minmax(min-content, max-content))")) := by
  constructor
  · intro src h
    unfold parse
    show (flushCur _).s.dynamicHeight = true
    rw [flushCur_s]
    exact foldl_parseStep_dynamicHeight (jsSplit '\n' src) _ rfl h
  · intro s cells hdyn hrow
    show (if jsTruthyStr s.rowHeights then s.rowHeights
      else if s.dynamicHeight then
        some ("repeat(" ++ jsNumToString s.rows ++ ", minmax(min-content, max-content))")
      else none) = _
    rw [hrow]
    show (if false = true then (none : Option String) else _) = _
    rw [if_neg (by simp), if_pos hdyn]

/-- C10 witness: the block declaring only columns and rows parses with
dynamicHeight = true and builds content-sized row tracks. -/
theorem c10_witness :
    (parse srcC10).1.dynamicHeight = true
    ∧ (buildGrid (parse srcC10).1 []).gridTemplateRows
        = some "repeat(2, minmax(min-content, max-content))" := by
  refine ⟨c10_dynamic_height_default.1 srcC10 (by decide), ?_⟩
  have h2 := c10_dynamic_height_default.2 (parse srcC10).1 []
    (c10_dynamic_height_default.1 srcC10 (by decide)) (by decide)
  rw [h2]
  decide
